import Mathlib

/-!
Shallow embedding of the bonfida-bot client library
(js/src/secondary_bindings.ts) for specification checking.

Byte buffers are modelled as `List Nat` (each entry one byte), public keys
as their 32-byte contents, and the JavaScript number arithmetic of the
deposit workflow over `ℚ`.  Functions that `throw` in TypeScript are
modelled in `Except String`.  Supporting modules of the repository
(state.ts, utils.ts, main.ts) are not part of the given source tree; the
definitions taken from them are modelled from the spec and marked as such
in their doc comments.
-/

/-- Byte buffers (`Buffer` / `Uint8Array`): a list of byte values. -/
abbrev Bytes := List Nat

/-- Helper mirroring `buffer.slice(off, off + len)`: `len` bytes starting at
offset `off` (fewer when the buffer is shorter, as in JavaScript). -/
def extractBytes (b : Bytes) (off len : Nat) : Bytes :=
  (b.drop off).take len

/-- Modelled from the spec: `Numberu64.fromBuffer` / `Numberu16.fromBuffer`
from utils.ts (not under src/) read a little-endian unsigned integer from a
byte buffer of the corresponding width. -/
def leNat (bs : Bytes) : Nat :=
  bs.foldr (fun b acc => b + 256 * acc) 0

/-- Modelled from the spec: order side enumeration from state.ts (not under
src/), "enumerated variants (side, order type, self-trade behavior)". -/
inductive OrderSide
  | Bid
  | Ask
  deriving DecidableEq, Repr

/-- Modelled from the spec: order type enumeration from state.ts (not under
src/). -/
inductive OrderType
  | Limit
  | ImmediateOrCancel
  | PostOnly
  deriving DecidableEq, Repr

/-- Modelled from the spec: self-trade behavior enumeration from state.ts
(not under src/). -/
inductive SelfTradeBehavior
  | DecrementTake
  | CancelProvide
  | AbortTransaction
  deriving DecidableEq, Repr

/-- Modelled from the spec: `PUBKEY_LENGTH` from state.ts (not under src/):
public keys are 32 bytes. -/
def PUBKEY_LENGTH : Nat := 32

namespace PoolHeader

/-- Modelled from the spec: the fixed `PoolHeader.LEN` from state.ts (not
under src/).  The spec gives the header fields (order-routing program id,
seed bytes, signal-provider identity, status, fee ratio, fee collection
period, count of authorized markets) but no byte total; the code under src/
fixes the signal provider at bytes 64..96 and the seed at bytes 32..64,
so the layout is modelled as 32 + 32 + 32 bytes of keys, 1 status byte,
2 fee-ratio bytes, 8 fee-period bytes and 2 market-count bytes = 109.
None of the verified claims depends on the exact total. -/
def LEN : Nat := 109

end PoolHeader

/-- Modelled from the spec: the decoded `PoolHeader` structure from state.ts
(not under src/).  The status byte is kept raw. -/
structure PoolHeader where
  serumProgramId : Bytes
  seed : Bytes
  signalProvider : Bytes
  status : Nat
  feeRatio : Nat
  feeCollectionPeriod : Nat
  numberOfMarkets : Nat
  deriving DecidableEq, Repr

/-- Modelled from the spec: `PoolHeader.fromBuffer` from state.ts (not under
src/).  Header decoding reads fields at fixed byte offsets and must fail
loudly (not silently default) when the input is shorter than required. -/
def PoolHeader.fromBuffer (b : Bytes) : Except String PoolHeader :=
  if b.length < PoolHeader.LEN then
    .error "DecodingError"
  else
    .ok
      { serumProgramId := extractBytes b 0 32
        seed := extractBytes b 32 32
        signalProvider := extractBytes b 64 32
        status := (b.get? 96).getD 0
        feeRatio := leNat (extractBytes b 97 2)
        feeCollectionPeriod := leNat (extractBytes b 99 8)
        numberOfMarkets := leNat (extractBytes b 107 2) }

/-- Modelled from the spec: one fixed-size pool-asset record from state.ts
(not under src/): "a mint identity and (when parsed) its balance", i.e. a
32-byte mint followed by an 8-byte amount (40 bytes per record). -/
structure PoolAsset where
  mintAddress : Bytes
  amountInToken : Nat
  deriving DecidableEq, Repr

/-- Byte length of one pool-asset record. -/
def PoolAsset.LEN : Nat := 40

/-- Modelled from the spec: `unpack_markets` from state.ts (not under src/):
list decoding takes an explicit element count and reads that many fixed-size
(32-byte) records sequentially. -/
def unpack_markets (b : Bytes) (n : Nat) : List Bytes :=
  (List.range n).map fun i => extractBytes b (PUBKEY_LENGTH * i) PUBKEY_LENGTH

/-- Modelled from the spec: `unpack_assets` from state.ts (not under src/):
reads the fixed-size asset records sequentially, as many as the byte slice
holds. -/
def unpack_assets (b : Bytes) : List PoolAsset :=
  (List.range (b.length / PoolAsset.LEN)).map fun i =>
    { mintAddress := extractBytes b (PoolAsset.LEN * i) 32
      amountInToken := leNat (extractBytes b (PoolAsset.LEN * i + 32) 8) }

/-- The assembled pool read model (`PoolInfo`, secondary_bindings.ts
lines 46-57).  Addresses are the derived pool and mint keys. -/
structure PoolInfo where
  address : Bytes
  serumProgramId : Bytes
  seed : Bytes
  signalProvider : Bytes
  status : Nat
  feeRatio : Nat
  feePeriod : Nat
  mintKey : Bytes
  assetMintkeys : List Bytes
  authorizedMarkets : List Bytes
  deriving DecidableEq, Repr

/-- Embedding of `fetchPoolInfo` (secondary_bindings.ts lines 129-178).
The externally derived pool address and mint address are passed in (the
derivation is an external chain-client primitive), and the account lookup
result is the `Option Bytes` argument: `none` models a missing account,
which the code turns into the `Pool account is unavailable` error. -/
def fetchPoolInfo (poolKey poolMintKey : Bytes) (poolData : Option Bytes) :
    Except String PoolInfo :=
  match poolData with
  | none => .error "Pool account is unavailable"
  | some data =>
    match PoolHeader.fromBuffer (extractBytes data 0 PoolHeader.LEN) with
    | .error e => .error e
    | .ok poolHeader =>
    let poolAssets := unpack_assets
      (data.drop (PoolHeader.LEN + poolHeader.numberOfMarkets * PUBKEY_LENGTH))
    let authorizedMarkets := unpack_markets
      (extractBytes data PoolHeader.LEN (poolHeader.numberOfMarkets * PUBKEY_LENGTH))
      poolHeader.numberOfMarkets
    .ok {
        address := poolKey
        serumProgramId := poolHeader.serumProgramId
        seed := poolHeader.seed
        signalProvider := poolHeader.signalProvider
        status := poolHeader.status
        feeRatio := poolHeader.feeRatio
        feePeriod := poolHeader.feeCollectionPeriod
        mintKey := poolMintKey
        assetMintkeys := poolAssets.map (·.mintAddress)
        authorizedMarkets := authorizedMarkets }

/-- Modelled from the spec: `BONFIDABOT_PROGRAM_ID` from main.ts (not under
src/), the fixed identity of the trading program; its exact value is
irrelevant to the claims, only its use in equality comparisons. -/
def BONFIDABOT_PROGRAM_ID : Bytes := List.replicate 32 7

/-- Embedding of `getPoolsSeedsBySigProvider` (secondary_bindings.ts
lines 606-637).  The RPC call is replaced by the list of raw data buffers of
the program accounts it returns; `signalProviderKey` is the optional filter
key.  Accounts shorter than the pool-header length are skipped
(`continue`); otherwise the seed bytes 32..64 are collected whenever no
filter key was given or the signal-provider bytes 64..96 equal the key. -/
def getPoolsSeedsBySigProvider (accountDatas : List Bytes)
    (signalProviderKey : Option Bytes) : List Bytes :=
  accountDatas.filterMap fun data =>
    if data.length < PoolHeader.LEN then
      none
    else
      match signalProviderKey with
      | none => some (extractBytes data 32 32)
      | some key =>
        if extractBytes data 64 32 = key then some (extractBytes data 32 32)
        else none

/-- Confirmed-signature metadata attached to each decoded order
(`ConfirmedSignatureInfo`): the transaction signature and its slot. -/
structure SigInfo where
  signature : String
  slot : Nat
  deriving DecidableEq, Repr

/-- One decoded order-creation instruction (`PoolOrderInfo` from types.ts,
as populated by `parseCreateOrderInstruction`).  The side, order-type,
self-trade and market fields are `Option`s because the TypeScript lookups
`[A, B][byte]` and `authorizedMarkets[index]` evaluate to `undefined` when
the index is out of range. -/
structure PoolOrderInfo where
  poolSeed : Bytes
  side : Option OrderSide
  limitPrice : Nat
  ratioOfPoolAssetsToTrade : Nat
  orderType : Option OrderType
  clientOrderId : Nat
  selfTradeBehavior : Option SelfTradeBehavior
  market : Option Bytes
  transactionSignature : String
  transactionSlot : Nat
  deriving DecidableEq, Repr

/-- Embedding of `parseCreateOrderInstruction` (secondary_bindings.ts
lines 652-680).  Fixed offsets into the instruction data: seed at 1..33,
side byte at 33, 8-byte limit price at 34..42, 2-byte ratio at 42..44,
order-type byte at 44, 8-byte client id at 45..53, self-trade byte at 53,
2-byte market index at 70..72 resolved against the pool's authorized
markets.  The JavaScript array lookups are `List.get?`. -/
def parseCreateOrderInstruction (data : Bytes) (poolInfo : PoolInfo)
    (sig : SigInfo) : PoolOrderInfo :=
  { poolSeed := extractBytes data 1 32
    side := (data.get? 33).bind fun b => [OrderSide.Bid, OrderSide.Ask].get? b
    limitPrice := leNat (extractBytes data 34 8)
    ratioOfPoolAssetsToTrade := leNat (extractBytes data 42 2)
    orderType := (data.get? 44).bind fun b =>
      [OrderType.Limit, OrderType.ImmediateOrCancel, OrderType.PostOnly].get? b
    clientOrderId := leNat (extractBytes data 45 8)
    selfTradeBehavior := (data.get? 53).bind fun b =>
      [SelfTradeBehavior.DecrementTake, SelfTradeBehavior.CancelProvide,
        SelfTradeBehavior.AbortTransaction].get? b
    market := poolInfo.authorizedMarkets.get? (leNat (extractBytes data 70 2))
    transactionSignature := sig.signature
    transactionSlot := sig.slot }

/-- One instruction of a confirmed transaction: target program and data. -/
structure Instruction where
  programId : Bytes
  data : Bytes
  deriving DecidableEq, Repr

/-- Embedding of the instruction scan inside `getPoolOrdersInfosFromSignature`
(secondary_bindings.ts lines 689-694): map every instruction to a decoded
order when its program is the trading program and its leading opcode byte is
3 (`undefined` otherwise), then drop the undefined entries
(`.filter(o => o)`). -/
def getPoolOrdersInfosFromSignature (instructions : List Instruction)
    (poolInfo : PoolInfo) (sig : SigInfo) : List PoolOrderInfo :=
  instructions.filterMap fun i =>
    if i.programId = BONFIDABOT_PROGRAM_ID ∧ i.data.head? = some 3 then
      some (parseCreateOrderInstruction i.data poolInfo sig)
    else
      none

/-- One scanned transaction: its signature info and, when the lookup by
signature succeeded, its instruction list (`getConfirmedTransaction` may
return null, modelled by `none`; the per-signature scan then yields
`undefined`, dropped by the outer filter). -/
structure TxRecord where
  sig : SigInfo
  tx : Option (List Instruction)
  deriving DecidableEq, Repr

/-- The full (untruncated) order log assembled by `getPoolOrderInfos`
(secondary_bindings.ts lines 714-720): per-signature results, undefined
entries dropped, flattened in order. -/
def allPoolOrderInfos (txs : List TxRecord) (poolInfo : PoolInfo) :
    List PoolOrderInfo :=
  (txs.filterMap fun r =>
    r.tx.map fun instructions =>
      getPoolOrdersInfosFromSignature instructions poolInfo r.sig).flatten

/-- Embedding of `getPoolOrderInfos` (secondary_bindings.ts lines 697-722):
resolve the pool info from the account data, scan the confirmed-signature
window `txs`, and truncate the flattened order log to the first `n` entries
(`infos.slice(0, n)`). -/
def getPoolOrderInfos (poolKey poolMintKey : Bytes) (poolData : Option Bytes)
    (txs : List TxRecord) (n : Nat) : Except String (List PoolOrderInfo) :=
  (fetchPoolInfo poolKey poolMintKey poolData).map fun poolInfo =>
    (allPoolOrderInfos txs poolInfo).take n

/-- Embedding of the conversion-verification step of `singleTokenDeposit`
(secondary_bindings.ts lines 367-376): after the source-to-USDC order and
settlement, re-read the source token balance and throw
`Conversion to USDC Order was not matched.` when
`tokenInitialBalance - tokenBalance > amount`.  Balances and the amount are
the JavaScript numbers involved, modelled as integers. -/
def conversionCheck (tokenInitialBalance tokenBalance amount : Int) :
    Except String Unit :=
  if tokenInitialBalance - tokenBalance > amount then
    .error "Conversion to USDC Order was not matched."
  else
    .ok ()

/-- Parameters of one Serum order as passed to `market.placeOrder`. -/
structure OrderParams where
  side : String
  price : ℚ
  size : ℚ
  orderType : String
  deriving DecidableEq, Repr

/-- Embedding of the `amount` computation of `singleTokenDeposit`
(secondary_bindings.ts line 287): `amount = precision * user_amount`, where
`precision` is the `decimals` value of the source token account's balance
query. -/
def depositAmount (precision user_amount : ℚ) : ℚ :=
  precision * user_amount

/-- Embedding of the conversion order placed by `singleTokenDeposit` when
the source token is not USDC (secondary_bindings.ts lines 318-325): an
immediate-or-cancel sell at `0.95 * midPriceUSDC` of size `amount`. -/
def conversionOrder (midPriceUSDC precision user_amount : ℚ) : OrderParams :=
  { side := "sell"
    price := (95 / 100 : ℚ) * midPriceUSDC
    size := depositAmount precision user_amount
    orderType := "ioc" }

/-- The order the spec's words describe for the conversion step: an
immediate-or-cancel sell at a 5% discount to mid price "for the requested
amount" of source tokens. -/
def specConversionOrder (midPriceUSDC user_amount : ℚ) : OrderParams :=
  { side := "sell"
    price := (95 / 100 : ℚ) * midPriceUSDC
    size := user_amount
    orderType := "ioc" }

/-- One pool asset as seen by the rebalance step of `singleTokenDeposit`:
whether its symbol is USDC, its pool balance (`poolAssetAmounts[i]`), and
the mid price of its ASSET/USDC market (meaningless for the USDC leg, whose
branch never queries it). -/
structure DepositLeg where
  isUSDC : Bool
  poolBalance : ℚ
  assetMidPrice : ℚ
  deriving DecidableEq, Repr

/-- Embedding of the `totalPoolAssetAmount` accumulation
(secondary_bindings.ts lines 416-428): the sum of all pool asset
balances. -/
def totalPoolAssetAmount (legs : List DepositLeg) : ℚ :=
  (legs.map (·.poolBalance)).sum

/-- The pool-token amount implied by one leg of the rebalance loop
(secondary_bindings.ts lines 431-491): for a non-USDC asset with nonzero
balance, `assetAmountToBuy / poolAssetAmounts[i]` with
`assetAmountToBuy = midPriceUSDC * amount * poolAssetAmounts[i] /
(assetMidPrice * totalPoolAssetAmount)`; for the USDC asset,
`1000000 * midPriceUSDC * amount / totalPoolAssetAmount`; `none` for a
non-USDC asset with zero balance (the loop `continue`s past it). -/
def legPoolTokenClaim (midPriceUSDC amount total : ℚ) (leg : DepositLeg) :
    Option ℚ :=
  if leg.isUSDC then
    some (1000000 * midPriceUSDC * amount / total)
  else if leg.poolBalance = 0 then
    none
  else
    some ((midPriceUSDC * amount * leg.poolBalance /
      (leg.assetMidPrice * total)) / leg.poolBalance)

/-- The rebalance loop's accumulation of `poolTokenAmount` via `Math.max`
(secondary_bindings.ts lines 463-466 and 486-489), starting from the given
accumulator. -/
def poolTokenAmountAux (midPriceUSDC amount total : ℚ) :
    List DepositLeg → ℚ → ℚ
  | [], acc => acc
  | leg :: rest, acc =>
    poolTokenAmountAux midPriceUSDC amount total rest
      (match legPoolTokenClaim midPriceUSDC amount total leg with
       | none => acc
       | some r => max acc r)

/-- The `poolTokenAmount` value reached at the end of the rebalance loop
(initial value 0, secondary_bindings.ts line 430); the final deposit
instruction claims `1000000 * poolTokenAmount` pool tokens
(line 586). -/
def poolTokenAmount (midPriceUSDC amount : ℚ) (legs : List DepositLeg) : ℚ :=
  poolTokenAmountAux midPriceUSDC amount (totalPoolAssetAmount legs) legs 0

/-! Concrete inputs used by the claim counterexamples and witnesses. -/

/-- Concrete two-leg pool for the rebalance-sizing claims: two non-USDC
assets, both with pool balance 1, with ASSET/USDC mid prices 1 and 2. -/
def c2legs : List DepositLeg :=
  [{ isUSDC := false, poolBalance := 1, assetMidPrice := 1 },
   { isUSDC := false, poolBalance := 1, assetMidPrice := 2 }]

/-- Concrete order-creation instruction data whose side byte (offset 33) is
the out-of-range value 2, with in-range order-type byte 1, self-trade byte
0 and market index 0: opcode 3, seed of 4s, price bytes of 1s, ratio bytes
[7,0], client-id bytes of 2s and padding up to the 72-byte layout. -/
def c3data : Bytes :=
  [3] ++ List.replicate 32 4 ++ [2] ++ List.replicate 8 1 ++ [7, 0] ++ [1] ++
    List.replicate 8 2 ++ [0] ++ List.replicate 16 0 ++ [0, 0]

/-- Concrete pool info with a single authorized market, used to exercise
`parseCreateOrderInstruction` on concrete instruction data. -/
def c3pool : PoolInfo :=
  { address := List.replicate 32 1
    serumProgramId := List.replicate 32 2
    seed := List.replicate 32 3
    signalProvider := List.replicate 32 6
    status := 1
    feeRatio := 10
    feePeriod := 604800
    mintKey := List.replicate 32 8
    assetMintkeys := []
    authorizedMarkets := [List.replicate 32 5] }

/-- Concrete signature metadata for the decoding claims. -/
def c3sig : SigInfo :=
  { signature := "3xSignature", slot := 42 }

/-- Concrete instruction data whose side, order-type and self-trade bytes
(offsets 33, 44 and 53) all hold the out-of-range value 3. -/
def c3wdata : Bytes :=
  List.replicate 33 0 ++ [3] ++ List.replicate 10 0 ++ [3] ++
    List.replicate 8 0 ++ [3] ++ List.replicate 18 0

/-- Concrete instruction data whose market-index bytes at offsets 70..72
encode the index 5, past the single-market list of `c3pool`. -/
def c10data : Bytes :=
  List.replicate 70 0 ++ [5, 0]

/-- Concrete qualifying instruction: trading-program target and opcode 3. -/
def c5instr : Instruction :=
  { programId := BONFIDABOT_PROGRAM_ID, data := c3data }

/-- Concrete non-qualifying instruction: opcode 3 but a different target
program. -/
def c5bad : Instruction :=
  { programId := List.replicate 32 9, data := [3] }

/-- Concrete pool account data: an all-zero header (zero markets, no
assets). -/
def c6data : Bytes := List.replicate 109 0

/-- The pool info decoded from `c6data`. -/
def c6pool : PoolInfo :=
  { address := List.replicate 32 1
    serumProgramId := List.replicate 32 0
    seed := List.replicate 32 0
    signalProvider := List.replicate 32 0
    status := 0
    feeRatio := 0
    feePeriod := 0
    mintKey := List.replicate 32 8
    assetMintkeys := []
    authorizedMarkets := [] }

/-- Concrete signature window: one transaction holding one qualifying and
one non-qualifying instruction, and one signature whose transaction lookup
returned null. -/
def c6txs : List TxRecord :=
  [{ sig := c3sig, tx := some [c5instr, c5bad] },
   { sig := { signature := "s2", slot := 43 }, tx := none }]

/-- Concrete pool account data: all-zero header except a market count of 1
(bytes 107..109), followed by one 32-byte market record of 5s and one
40-byte asset record whose mint bytes are 9s. -/
def c9data : Bytes :=
  List.replicate 107 0 ++ [1, 0] ++ List.replicate 32 5 ++
    List.replicate 32 9 ++ List.replicate 8 0

/-- The pool info decoded from `c9data`. -/
def c9info : PoolInfo :=
  { address := List.replicate 32 1
    serumProgramId := List.replicate 32 0
    seed := List.replicate 32 0
    signalProvider := List.replicate 32 0
    status := 0
    feeRatio := 0
    feePeriod := 0
    mintKey := List.replicate 32 8
    assetMintkeys := [List.replicate 32 9]
    authorizedMarkets := [List.replicate 32 5] }

/-! Helper lemmas shared by the claim theorems. -/

lemma filterMap_guard {α β : Type _} (p : α → Prop) [DecidablePred p]
    (g : α → β) (l : List α) :
    (l.filterMap fun a => if p a then some (g a) else none) =
      (l.filter fun a => decide (p a)).map g := by
  induction l with
  | nil => rfl
  | cons a l ih =>
    by_cases h : p a <;>
      simp [List.filterMap_cons, List.filter_cons, h, ih]

lemma extractBytes_extractBytes (b : Bytes) (off len off' len' : Nat)
    (h : off' + len' ≤ len) :
    extractBytes (extractBytes b off len) off' len' =
      extractBytes b (off + off') len' := by
  unfold extractBytes
  rw [List.drop_take, List.take_take, List.drop_drop]
  congr 1
  omega

lemma extractBytes_drop (b : Bytes) (k off len : Nat) :
    extractBytes (b.drop k) off len = extractBytes b (k + off) len := by
  unfold extractBytes
  rw [List.drop_drop]

lemma unpack_markets_length (b : Bytes) (n : Nat) :
    (unpack_markets b n).length = n := by
  simp [unpack_markets]

lemma unpack_markets_get? (b : Bytes) (n i : Nat) (h : i < n) :
    (unpack_markets b n).get? i =
      some (extractBytes b (PUBKEY_LENGTH * i) PUBKEY_LENGTH) := by
  simp only [unpack_markets, List.get?_map, List.get?_eq_getElem?,
    List.getElem?_map]
  rw [List.getElem?_range h]
  rfl

lemma unpack_assets_get? (b : Bytes) (i : Nat)
    (h : i < b.length / PoolAsset.LEN) :
    (unpack_assets b).get? i =
      some { mintAddress := extractBytes b (PoolAsset.LEN * i) 32
             amountInToken := leNat (extractBytes b (PoolAsset.LEN * i + 32) 8) } := by
  simp only [unpack_assets, List.get?_eq_getElem?, List.getElem?_map]
  rw [List.getElem?_range h]
  rfl

lemma poolTokenAmountAux_ge_acc (midPriceUSDC amount total : ℚ)
    (legs : List DepositLeg) (acc : ℚ) :
    acc ≤ poolTokenAmountAux midPriceUSDC amount total legs acc := by
  induction legs generalizing acc with
  | nil => exact le_refl _
  | cons leg rest ih =>
    unfold poolTokenAmountAux
    cases hc : legPoolTokenClaim midPriceUSDC amount total leg with
    | none => exact ih acc
    | some r => exact le_trans (le_max_left acc r) (ih (max acc r))

lemma poolTokenAmountAux_ge_leg (midPriceUSDC amount total : ℚ)
    (legs : List DepositLeg) (acc : ℚ) (leg : DepositLeg) (r : ℚ)
    (hmem : leg ∈ legs)
    (hr : legPoolTokenClaim midPriceUSDC amount total leg = some r) :
    r ≤ poolTokenAmountAux midPriceUSDC amount total legs acc := by
  induction legs generalizing acc with
  | nil => cases hmem
  | cons head rest ih =>
    rcases List.mem_cons.mp hmem with heq | htail
    · subst heq
      unfold poolTokenAmountAux
      rw [hr]
      exact le_trans (le_max_right acc r)
        (poolTokenAmountAux_ge_acc midPriceUSDC amount total rest (max acc r))
    · unfold poolTokenAmountAux
      cases hc : legPoolTokenClaim midPriceUSDC amount total head with
      | none => exact ih acc htail
      | some s => exact ih (max acc s) htail

/-! Theorems for the individual claims. -/

/-- C1: the spec claims the conversion-verification step of
`singleTokenDeposit` fails with `ConversionNotMatched` exactly when the
source balance did not decrease by at least the intended amount, with
initial balance 1000, post-settle balance 400: requested amount 500 passes
(decrease 600 ≥ 500) and requested amount 700 errors (600 < 700).  The code
compares in the opposite direction (`tokenInitialBalance - tokenBalance >
amount`, line 374): at amount 500 it throws and at amount 700 it passes,
contradicting both the spec scenario and the code's own error message (a
conversion order that was not matched leaves the balance undiminished and
can never make the difference exceed the amount). -/
theorem conversionCheck_contradicts_spec_scenario :
    conversionCheck 1000 400 500 =
        Except.error "Conversion to USDC Order was not matched." ∧
      conversionCheck 1000 400 700 = Except.ok () :=
  ⟨rfl, rfl⟩

/-- C8: `fetchPoolInfo` fails with the pool-unavailable error whenever no
account exists at the derived address (the account lookup returned null),
and in that case no partial `PoolInfo` is produced. -/
theorem fetchPoolInfo_fails_on_missing_account (poolKey poolMintKey : Bytes) :
    fetchPoolInfo poolKey poolMintKey none =
      Except.error "Pool account is unavailable" :=
  rfl

/-- C7: `getPoolsSeedsBySigProvider` with a signal-provider key returns
exactly the seeds (bytes 32..64) of the program accounts whose bytes 64..96
equal that key; with no key it returns the seeds of all program accounts;
accounts shorter than the pool-header length are excluded in both cases. -/
theorem getPoolsSeedsBySigProvider_exact (accountDatas : List Bytes)
    (key : Bytes) :
    getPoolsSeedsBySigProvider accountDatas (some key) =
        ((accountDatas.filter fun d =>
            decide (PoolHeader.LEN ≤ d.length ∧ extractBytes d 64 32 = key)).map
          fun d => extractBytes d 32 32) ∧
      getPoolsSeedsBySigProvider accountDatas none =
        ((accountDatas.filter fun d => decide (PoolHeader.LEN ≤ d.length)).map
          fun d => extractBytes d 32 32) := by
  constructor
  · have hfun :
        (fun data => if data.length < PoolHeader.LEN then none
          else
            if extractBytes data 64 32 = key then
              some (extractBytes data 32 32)
            else none) =
        (fun data : Bytes =>
          if PoolHeader.LEN ≤ data.length ∧ extractBytes data 64 32 = key then
            some (extractBytes data 32 32)
          else none) := by
      funext d
      by_cases h1 : d.length < PoolHeader.LEN
      · have h1' : ¬ (PoolHeader.LEN ≤ d.length ∧ extractBytes d 64 32 = key) := by
          intro hcon
          omega
        simp [h1, h1']
      · by_cases h2 : extractBytes d 64 32 = key
        · have h2' : PoolHeader.LEN ≤ d.length ∧ extractBytes d 64 32 = key :=
            ⟨by omega, h2⟩
          simp [h1, h2, h2']
        · have h2' : ¬ (PoolHeader.LEN ≤ d.length ∧ extractBytes d 64 32 = key) := by
            intro hcon
            exact h2 hcon.2
          simp [h1, h2, h2']
    show List.filterMap _ accountDatas = _
    rw [show (fun data : Bytes =>
        if data.length < PoolHeader.LEN then none
        else match some key with
          | none => some (extractBytes data 32 32)
          | some k =>
            if extractBytes data 64 32 = k then some (extractBytes data 32 32)
            else none) =
        (fun data : Bytes =>
          if PoolHeader.LEN ≤ data.length ∧ extractBytes data 64 32 = key then
            some (extractBytes data 32 32)
          else none) from hfun]
    exact filterMap_guard _ _ accountDatas
  · have hfun :
        (fun data : Bytes =>
          if data.length < PoolHeader.LEN then none
          else some (extractBytes data 32 32)) =
        (fun data : Bytes =>
          if PoolHeader.LEN ≤ data.length then some (extractBytes data 32 32)
          else none) := by
      funext d
      by_cases h1 : d.length < PoolHeader.LEN
      · simp [h1, show ¬ PoolHeader.LEN ≤ d.length by omega]
      · simp [h1, show PoolHeader.LEN ≤ d.length by omega]
    show List.filterMap _ accountDatas = _
    rw [hfun]
    exact filterMap_guard _ _ accountDatas

/-- C4: the spec claims the conversion order of `singleTokenDeposit` is an
immediate-or-cancel sell at 0.95 times the mid price whose size equals the
caller's requested amount of source tokens.  Counterexample: with mid price
1, a source token whose balance query reports 6 decimals and a requested
amount of 500, the order placed has size `precision * user_amount = 3000`,
not 500 (line 287 multiplies the requested amount by the decimals
value). -/
theorem conversionOrder_size_counterexample :
    (conversionOrder 1 6 500).size = 3000 ∧
      conversionOrder 1 6 500 ≠ specConversionOrder 1 500 := by
  have hsize : (conversionOrder 1 6 500).size = 3000 := by
    show depositAmount 6 500 = 3000
    unfold depositAmount
    norm_num
  refine ⟨hsize, fun h => ?_⟩
  have hs := congrArg OrderParams.size h
  rw [hsize] at hs
  have : (3000 : ℚ) = 500 := hs
  norm_num at this

/-- C4 (amended): the conversion order is an immediate-or-cancel sell at
0.95 times the mid price whose size is the requested amount multiplied by
the decimals value of the source token's balance query
(`amount = precision * user_amount`), i.e. the source order equals the
spec's order taken at that scaled amount. -/
theorem conversionOrder_is_spec_order_at_scaled_amount
    (midPriceUSDC precision user_amount : ℚ) :
    conversionOrder midPriceUSDC precision user_amount =
      specConversionOrder midPriceUSDC (depositAmount precision user_amount) :=
  rfl

/-- C2: the spec claims the final deposit's pool-token claim "does not
claim more pool tokens than the least-filled per-asset leg supports".
Counterexample: with USDC mid price 1, amount 2 and the two legs of
`c2legs` (total balance 2), the first leg implies 1 pool token per unit and
the second leg only 1/2, yet `Math.max` makes the final claim 1 — strictly
more than the 1/2 the least-filled leg supports (a `min` would be needed
for the claimed bound). -/
theorem poolTokenAmount_exceeds_least_leg :
    legPoolTokenClaim 1 2 (totalPoolAssetAmount c2legs)
        { isUSDC := false, poolBalance := 1, assetMidPrice := 2 } =
        some (1 / 2) ∧
      ({ isUSDC := false, poolBalance := 1, assetMidPrice := 2 } :
          DepositLeg) ∈ c2legs ∧
      poolTokenAmount 1 2 c2legs = 1 ∧
      ¬ poolTokenAmount 1 2 c2legs ≤ 1 / 2 := by
  have htot : totalPoolAssetAmount c2legs = 2 := by
    simp [totalPoolAssetAmount, c2legs]
    norm_num
  have h1 : legPoolTokenClaim 1 2 2
      { isUSDC := false, poolBalance := 1, assetMidPrice := 1 } = some 1 := by
    simp [legPoolTokenClaim]
  have h2 : legPoolTokenClaim 1 2 2
      { isUSDC := false, poolBalance := 1, assetMidPrice := 2 } =
      some (1 / 2) := by
    simp [legPoolTokenClaim]
  have hval : poolTokenAmount 1 2 c2legs = 1 := by
    unfold poolTokenAmount
    rw [htot]
    show poolTokenAmountAux 1 2 2 c2legs 0 = 1
    unfold c2legs poolTokenAmountAux
    rw [h1]
    unfold poolTokenAmountAux
    rw [h2]
    unfold poolTokenAmountAux
    show ((0 : ℚ) ⊔ 1) ⊔ (1 / 2) = 1
    rw [sup_eq_right.mpr (by norm_num : (0 : ℚ) ≤ 1)]
    rw [sup_eq_left.mpr (by norm_num : (1 / 2 : ℚ) ≤ 1)]
  refine ⟨htot ▸ h2, by simp [c2legs], hval, ?_⟩
  rw [hval]
  norm_num

/-- C2 (amended): the rebalance step combines the per-leg implied
pool-token amounts with `Math.max`, not a sum; the resulting final deposit
claim is therefore at least the amount implied by every contributing leg
(an upper bound over the legs), and can strictly exceed what the
least-filled leg supports. -/
theorem poolTokenAmount_ge_every_leg (midPriceUSDC amount : ℚ)
    (legs : List DepositLeg) (leg : DepositLeg) (r : ℚ)
    (hmem : leg ∈ legs)
    (hr : legPoolTokenClaim midPriceUSDC amount (totalPoolAssetAmount legs)
      leg = some r) :
    r ≤ poolTokenAmount midPriceUSDC amount legs :=
  poolTokenAmountAux_ge_leg midPriceUSDC amount (totalPoolAssetAmount legs)
    legs 0 leg r hmem hr

/-- Witness for the amended C2 theorem at the concrete two-leg pool. -/
theorem poolTokenAmount_ge_every_leg_witness :
    (1 : ℚ) ≤ poolTokenAmount 1 2 c2legs :=
  poolTokenAmount_ge_every_leg 1 2 c2legs
    { isUSDC := false, poolBalance := 1, assetMidPrice := 1 } 1
    (by simp [c2legs])
    (by
      have htot : totalPoolAssetAmount c2legs = 2 := by
        simp [totalPoolAssetAmount, c2legs]
        norm_num
      rw [htot]
      simp [legPoolTokenClaim])

/-- C3: the spec claims an out-of-range side/order-type/self-trade byte is
a decoding error rather than a silently defaulted field.  Counterexample:
on `c3data`, whose side byte is 2 (outside the two-entry side table),
`parseCreateOrderInstruction` raises no error and returns a fully formed
`PoolOrderInfo` — the other fields are decoded as usual — whose side field
is simply absent (`undefined` in the TypeScript, `none` here). -/
theorem parseCreateOrderInstruction_silent_on_out_of_range :
    (parseCreateOrderInstruction c3data c3pool c3sig).side = none ∧
      (parseCreateOrderInstruction c3data c3pool c3sig).orderType =
        some OrderType.ImmediateOrCancel ∧
      (parseCreateOrderInstruction c3data c3pool c3sig).poolSeed =
        List.replicate 32 4 ∧
      (parseCreateOrderInstruction c3data c3pool c3sig).market =
        some (List.replicate 32 5) := by
  refine ⟨rfl, rfl, by decide, by decide⟩

/-- C3 (amended): the side, order-type and self-trade bytes are mapped to
enumerated variants through fixed lookup tables indexed by the byte value,
and a byte value outside the table's range yields a result whose
corresponding field is absent (`undefined`), with no decoding error
raised. -/
theorem parseCreateOrderInstruction_out_of_range_yields_none
    (data : Bytes) (poolInfo : PoolInfo) (sig : SigInfo) (b : Nat) :
    (data.get? 33 = some b → 2 ≤ b →
        (parseCreateOrderInstruction data poolInfo sig).side = none) ∧
      (data.get? 44 = some b → 3 ≤ b →
        (parseCreateOrderInstruction data poolInfo sig).orderType = none) ∧
      (data.get? 53 = some b → 3 ≤ b →
        (parseCreateOrderInstruction data poolInfo sig).selfTradeBehavior =
          none) := by
  refine ⟨fun hb h => ?_, fun hb h => ?_, fun hb h => ?_⟩
  · show ((data.get? 33).bind fun c =>
      [OrderSide.Bid, OrderSide.Ask].get? c) = none
    rw [hb]
    exact List.get?_eq_none.mpr (by simpa using h)
  · show ((data.get? 44).bind fun c =>
      [OrderType.Limit, OrderType.ImmediateOrCancel,
        OrderType.PostOnly].get? c) = none
    rw [hb]
    exact List.get?_eq_none.mpr (by simpa using h)
  · show ((data.get? 53).bind fun c =>
      [SelfTradeBehavior.DecrementTake, SelfTradeBehavior.CancelProvide,
        SelfTradeBehavior.AbortTransaction].get? c) = none
    rw [hb]
    exact List.get?_eq_none.mpr (by simpa using h)

/-- Witness for the amended C3 theorem at the concrete data `c3wdata`. -/
theorem parseCreateOrderInstruction_out_of_range_yields_none_witness :
    (parseCreateOrderInstruction c3wdata c3pool c3sig).side = none ∧
      (parseCreateOrderInstruction c3wdata c3pool c3sig).orderType = none ∧
      (parseCreateOrderInstruction c3wdata c3pool c3sig).selfTradeBehavior =
        none :=
  ⟨(parseCreateOrderInstruction_out_of_range_yields_none c3wdata c3pool c3sig
      3).1 (by decide) (by decide),
    (parseCreateOrderInstruction_out_of_range_yields_none c3wdata c3pool c3sig
      3).2.1 (by decide) (by decide),
    (parseCreateOrderInstruction_out_of_range_yields_none c3wdata c3pool c3sig
      3).2.2 (by decide) (by decide)⟩

/-- C10: `parseCreateOrderInstruction` resolves the order's market by using
the 2-byte little-endian market index at bytes 70..72 of the instruction
data as a position into the pool's authorized-market list, and when that
index is at least the list's length it still returns a `PoolOrderInfo`
whose market field is absent (`undefined`) rather than raising an
error. -/
theorem parseCreateOrderInstruction_market_resolution
    (data : Bytes) (poolInfo : PoolInfo) (sig : SigInfo) :
    (parseCreateOrderInstruction data poolInfo sig).market =
        poolInfo.authorizedMarkets.get? (leNat (extractBytes data 70 2)) ∧
      (poolInfo.authorizedMarkets.length ≤ leNat (extractBytes data 70 2) →
        (parseCreateOrderInstruction data poolInfo sig).market = none) := by
  refine ⟨rfl, fun h => ?_⟩
  show poolInfo.authorizedMarkets.get? (leNat (extractBytes data 70 2)) = none
  exact List.get?_eq_none.mpr h

/-- Witness for the C10 theorem at the concrete data `c10data`. -/
theorem parseCreateOrderInstruction_market_resolution_witness :
    (parseCreateOrderInstruction c10data c3pool c3sig).market = none :=
  (parseCreateOrderInstruction_market_resolution c10data c3pool c3sig).2
    (by decide)

lemma getPoolOrdersInfosFromSignature_mem
    (instructions : List Instruction) (poolInfo : PoolInfo) (sig : SigInfo)
    (o : PoolOrderInfo)
    (ho : o ∈ getPoolOrdersInfosFromSignature instructions poolInfo sig) :
    ∃ i ∈ instructions,
      i.programId = BONFIDABOT_PROGRAM_ID ∧ i.data.head? = some 3 ∧
        o = parseCreateOrderInstruction i.data poolInfo sig := by
  obtain ⟨i, hmem, hi⟩ := List.mem_filterMap.mp ho
  by_cases hc : i.programId = BONFIDABOT_PROGRAM_ID ∧ i.data.head? = some 3
  · refine ⟨i, hmem, hc.1, hc.2, ?_⟩
    rw [if_pos hc] at hi
    exact (Option.some.inj hi).symm
  · rw [if_neg hc] at hi
    cases hi

/-- C5: every order in the log assembled across the scanned transactions
originates from an instruction of one of those transactions whose target
program is the trading program and whose leading opcode byte is 3; an
instruction with a different opcode or a different target program is never
included in the `PoolOrderInfo` list `getPoolOrderInfos` truncates and
returns. -/
theorem getPoolOrderInfos_only_qualifying (txs : List TxRecord)
    (poolInfo : PoolInfo) (o : PoolOrderInfo)
    (ho : o ∈ allPoolOrderInfos txs poolInfo) :
    ∃ r ∈ txs, ∃ instructions, r.tx = some instructions ∧
      ∃ i ∈ instructions,
        i.programId = BONFIDABOT_PROGRAM_ID ∧ i.data.head? = some 3 ∧
          o = parseCreateOrderInstruction i.data poolInfo r.sig := by
  obtain ⟨l, hl, hol⟩ := List.mem_flatten.mp ho
  obtain ⟨r, hr, hconv⟩ := List.mem_filterMap.mp hl
  cases htx : r.tx with
  | none =>
    rw [htx] at hconv
    cases hconv
  | some instructions =>
    rw [htx] at hconv
    have hl' : l = getPoolOrdersInfosFromSignature instructions poolInfo r.sig :=
      (Option.some.inj hconv).symm
    subst hl'
    obtain ⟨i, hmem, h1, h2, h3⟩ :=
      getPoolOrdersInfosFromSignature_mem instructions poolInfo r.sig o hol
    exact ⟨r, hr, instructions, htx, i, hmem, h1, h2, h3⟩

/-- Witness for the C5 theorem at the concrete signature window. -/
theorem getPoolOrderInfos_only_qualifying_witness :
    ∃ r ∈ c6txs, ∃ instructions, r.tx = some instructions ∧
      ∃ i ∈ instructions,
        i.programId = BONFIDABOT_PROGRAM_ID ∧ i.data.head? = some 3 ∧
          parseCreateOrderInstruction c3data c6pool c3sig =
            parseCreateOrderInstruction i.data c6pool r.sig :=
  getPoolOrderInfos_only_qualifying c6txs c6pool
    (parseCreateOrderInstruction c3data c6pool c3sig) (by decide)

/-- C6: `getPoolOrderInfos` returns at most `n` entries, and fewer than `n`
exactly when fewer than `n` qualifying decodable order-creation
instructions exist in the scanned signature window: the result is the
untruncated order log cut to its first `n` entries, so its length is the
minimum of `n` and the number of qualifying orders. -/
theorem getPoolOrderInfos_length (poolKey poolMintKey : Bytes)
    (poolData : Option Bytes) (txs : List TxRecord) (n : Nat)
    (poolInfo : PoolInfo)
    (h : fetchPoolInfo poolKey poolMintKey poolData = .ok poolInfo) :
    ∃ res, getPoolOrderInfos poolKey poolMintKey poolData txs n = .ok res ∧
      res.length = min n (allPoolOrderInfos txs poolInfo).length := by
  refine ⟨(allPoolOrderInfos txs poolInfo).take n, ?_, ?_⟩
  · unfold getPoolOrderInfos
    rw [h]
    rfl
  · simp [List.length_take]

/-- Witness for the C6 theorem at the concrete window (three requested,
one qualifying order present). -/
theorem getPoolOrderInfos_length_witness :
    ∃ res, getPoolOrderInfos (List.replicate 32 1) (List.replicate 32 8)
        (some c6data) c6txs 3 = .ok res ∧
      res.length = min 3 (allPoolOrderInfos c6txs c6pool).length :=
  getPoolOrderInfos_length (List.replicate 32 1) (List.replicate 32 8)
    (some c6data) c6txs 3 c6pool (by rfl)

/-- C9: the asset and market lists assembled by `fetchPoolInfo` preserve
the byte order of the raw account: the `i`-th authorized market is the
`i`-th 32-byte record of the market region starting at the header end, and
the `j`-th asset mint is the mint field of the `j`-th fixed-size (40-byte)
asset record of the asset region starting after the
`numberOfMarkets`-many 32-byte market records. -/
theorem fetchPoolInfo_preserves_byte_order (poolKey poolMintKey : Bytes)
    (data : Bytes) (info : PoolInfo) (i j : Nat)
    (h : fetchPoolInfo poolKey poolMintKey (some data) = .ok info)
    (hi : i < info.authorizedMarkets.length)
    (hj : j < info.assetMintkeys.length) :
    info.authorizedMarkets.get? i =
        some (extractBytes data (PoolHeader.LEN + PUBKEY_LENGTH * i)
          PUBKEY_LENGTH) ∧
      info.assetMintkeys.get? j =
        some (extractBytes data
          (PoolHeader.LEN + PUBKEY_LENGTH * info.authorizedMarkets.length +
            PoolAsset.LEN * j) 32) := by
  simp only [fetchPoolInfo] at h
  cases hfb : PoolHeader.fromBuffer (extractBytes data 0 PoolHeader.LEN) with
  | error e =>
    rw [hfb] at h
    cases h
  | ok header =>
    rw [hfb] at h
    injection h with h'
    subst h'
    rw [unpack_markets_length] at hi ⊢
    constructor
    · rw [unpack_markets_get? _ _ _ hi]
      rw [extractBytes_extractBytes _ _ _ _ _
        (show PUBKEY_LENGTH * i + PUBKEY_LENGTH ≤
            header.numberOfMarkets * PUBKEY_LENGTH by
          simp only [PUBKEY_LENGTH]
          omega)]
    · have hj' : j <
          (data.drop (PoolHeader.LEN +
            header.numberOfMarkets * PUBKEY_LENGTH)).length /
            PoolAsset.LEN := by
        simpa [unpack_assets] using hj
      show ((unpack_assets (data.drop (PoolHeader.LEN +
          header.numberOfMarkets * PUBKEY_LENGTH))).map
          (fun x => x.mintAddress)).get? j =
        some (extractBytes data
          (PoolHeader.LEN + PUBKEY_LENGTH * header.numberOfMarkets +
            PoolAsset.LEN * j) 32)
      rw [List.get?_map, unpack_assets_get? _ _ hj']
      show some (extractBytes (data.drop (PoolHeader.LEN +
          header.numberOfMarkets * PUBKEY_LENGTH)) (PoolAsset.LEN * j) 32) = _
      rw [extractBytes_drop]
      congr 2
      ring

/-- Witness for the C9 theorem at the concrete account data `c9data`. -/
theorem fetchPoolInfo_preserves_byte_order_witness :
    c9info.authorizedMarkets.get? 0 =
        some (extractBytes c9data (PoolHeader.LEN + PUBKEY_LENGTH * 0)
          PUBKEY_LENGTH) ∧
      c9info.assetMintkeys.get? 0 =
        some (extractBytes c9data
          (PoolHeader.LEN + PUBKEY_LENGTH * c9info.authorizedMarkets.length +
            PoolAsset.LEN * 0) 32) :=
  fetchPoolInfo_preserves_byte_order (List.replicate 32 1)
    (List.replicate 32 8) c9data c9info 0 0 (by rfl) (by decide) (by decide)

